import Mathlib

/-!
Verification of the gateway's authentication middleware and token-issuance
responder against its specification.

The Go sources are shallowly embedded: strings are modelled at the character
level (`String.data`), which agrees with Go's byte-level operations on the
ASCII inputs the middleware manipulates (base64 alphabets, the `Bearer `
prefix, JSON claim names).  Machine integers (`int64` Unix seconds,
`durationpb` second counts) are modelled as `Int`; the values involved are
far below overflow.  Wall-clock time is passed explicitly as `now`: the Go
code reads `time.Now()` exactly once per check, after all parsing, so
factoring it out as a parameter is observationally faithful.
-/

namespace Gateway

/-! ## Character-level models of the Go `strings` functions used -/

/-- Model of Go string slicing `s[:n]` (char level; ASCII-faithful). -/
def strTake (s : String) (n : Nat) : String := String.mk (s.data.take n)

/-- Model of Go string slicing `s[n:]` (char level; ASCII-faithful). -/
def strDrop (s : String) (n : Nat) : String := String.mk (s.data.drop n)

/-- Model of Go `len(s)` (char level; ASCII-faithful). -/
def strLen (s : String) : Nat := s.data.length

/-- The whitespace predicate of Go's `unicode.IsSpace` restricted to the
Latin-1 range (space, \t, \n, \v, \f, \r, NEL, NBSP). -/
def goIsSpace (c : Char) : Bool :=
  c = ' ' ∨ c = '\t' ∨ c = '\n' ∨ c = Char.ofNat 11 ∨ c = Char.ofNat 12 ∨
  c = '\r' ∨ c = Char.ofNat 133 ∨ c = Char.ofNat 160

/-- Drop leading whitespace characters. -/
def dropLeadingSpace : List Char → List Char
  | [] => []
  | c :: rest => if goIsSpace c then dropLeadingSpace rest else c :: rest

/-- Model of Go `strings.TrimSpace`. -/
def goTrimSpace (s : String) : String :=
  String.mk (((dropLeadingSpace s.data).reverse |> dropLeadingSpace).reverse)

/-- Split a character list at every `'.'`, keeping empty segments, as Go's
`strings.Split(s, ".")` does. -/
def splitDotChars : List Char → List (List Char)
  | [] => [[]]
  | c :: rest =>
    let r := splitDotChars rest
    if c = '.' then [] :: r
    else
      match r with
      | s :: ss => (c :: s) :: ss
      | [] => [[c]]

/-- Model of Go `strings.Split(s, ".")`. -/
def goSplitDot (s : String) : List String := (splitDotChars s.data).map String.mk

/-- Model of Go `strings.EqualFold` (ASCII simple folding; the middleware
only ever folds the ASCII prefix `"Bearer "`). -/
def stringEqualFold (s t : String) : Bool :=
  s.data.map Char.toLower == t.data.map Char.toLower

/-- Boolean substring test (used to state "the body contains ..."). -/
def containsSub : List Char → List Char → Bool
  | _, [] => true
  | [], _ :: _ => false
  | c :: rest, p :: ps => List.isPrefixOf (p :: ps) (c :: rest) || containsSub rest (p :: ps)

/-- `containsStr s pat` holds when `pat` occurs as a contiguous substring. -/
def containsStr (s pat : String) : Bool := containsSub s.data pat.data

/-! ## Model of `encoding/base64` as used by `tokenExpired`

Go's `base64.RawURLEncoding.DecodeString` (URL alphabet, padding rejected,
newlines skipped, length ≡ 1 (mod 4) rejected) and
`base64.StdEncoding.DecodeString` (standard alphabet, length must be a
multiple of 4, at most two trailing `=`).  The default Go decoders do not
check that unused trailing bits are zero, and neither do these models. -/

/-- Sextet value of a character in the URL-safe base64 alphabet. -/
def b64UrlVal (c : Char) : Option Nat :=
  if 'A' ≤ c ∧ c ≤ 'Z' then some (c.toNat - 65)
  else if 'a' ≤ c ∧ c ≤ 'z' then some (c.toNat - 97 + 26)
  else if '0' ≤ c ∧ c ≤ '9' then some (c.toNat - 48 + 52)
  else if c = '-' then some 62
  else if c = '_' then some 63
  else none

/-- Sextet value of a character in the standard base64 alphabet. -/
def b64StdVal (c : Char) : Option Nat :=
  if 'A' ≤ c ∧ c ≤ 'Z' then some (c.toNat - 65)
  else if 'a' ≤ c ∧ c ≤ 'z' then some (c.toNat - 97 + 26)
  else if '0' ≤ c ∧ c ≤ '9' then some (c.toNat - 48 + 52)
  else if c = '+' then some 62
  else if c = '/' then some 63
  else none

/-- Decode base64 sextets into bytes, four characters at a time; a leftover
of two or three characters yields one or two bytes, a leftover of one
character is a corrupt input. -/
def b64Chunks (val : Char → Option Nat) : List Char → Option (List Nat)
  | [] => some []
  | c1 :: c2 :: c3 :: c4 :: rest =>
    match val c1, val c2, val c3, val c4, b64Chunks val rest with
    | some v1, some v2, some v3, some v4, some bs =>
      some ((v1 * 4 + v2 / 16) :: ((v2 % 16) * 16 + v3 / 4) :: ((v3 % 4) * 64 + v4) :: bs)
    | _, _, _, _, _ => none
  | [c1, c2] =>
    match val c1, val c2 with
    | some v1, some v2 => some [v1 * 4 + v2 / 16]
    | _, _ => none
  | [c1, c2, c3] =>
    match val c1, val c2, val c3 with
    | some v1, some v2, some v3 => some [v1 * 4 + v2 / 16, (v2 % 16) * 16 + v3 / 4]
    | _, _, _ => none
  | [_] => none

/-- Model of `base64.RawURLEncoding.DecodeString` (unpadded URL-safe). -/
def rawUrlB64Decode (s : String) : Option (List Nat) :=
  b64Chunks b64UrlVal (s.data.filter (fun c => !(c = '\n' ∨ c = '\r')))

/-- Model of `base64.StdEncoding.DecodeString` (padded standard). -/
def stdB64Decode (s : String) : Option (List Nat) :=
  let cs := s.data.filter (fun c => !(c = '\n' ∨ c = '\r'))
  if cs.length % 4 = 0 then
    let pad := (cs.reverse.takeWhile (fun c => c = '=')).length
    if pad ≤ 2 then b64Chunks b64StdVal (cs.take (cs.length - pad)) else none
  else none

/-! ## Model of `encoding/json` as used by `json.Unmarshal(raw, &claims)`

`claims` is a `map[string]interface{}`, so the default decoder is in play:
every JSON number becomes a `float64`, later keys of a duplicated name
overwrite earlier ones, and trailing non-whitespace after the top-level
value is an error.  Numbers are kept unevaluated (sign, mantissa digits,
fraction length, exponent) so that the `int64(float64)` truncation performed
by `tokenExpired` can be computed exactly; this agrees with `float64` for
every value below 2^53, which covers every realistic `exp` claim.  String
contents are modelled byte-per-character (Latin-1 view of the UTF-8 bytes),
which is exact for the ASCII claim names the middleware reads. -/

/-- An unevaluated JSON number: `(-1)^neg * mantissa * 10^(exp - fracLen)`. -/
structure JNum where
  neg : Bool
  mantissa : Nat
  fracLen : Nat
  exp : Int
deriving DecidableEq, Repr

/-- The Go `int64(f)` conversion applied to the number's `float64` value:
truncation toward zero. -/
def JNum.toInt64Trunc (n : JNum) : Int :=
  let k : Int := n.exp - (n.fracLen : Int)
  let mag : Nat := if 0 ≤ k then n.mantissa * 10 ^ k.toNat else n.mantissa / 10 ^ (-k).toNat
  if n.neg then -(mag : Int) else (mag : Int)

/-- JSON values as produced by `json.Unmarshal` into `interface{}`. -/
inductive Json where
  | null
  | bool (b : Bool)
  | num (n : JNum)
  | str (s : String)
  | arr (elems : List Json)
  | obj (fields : List (String × Json))

/-- Skip JSON whitespace bytes (space, \t, \n, \r). -/
def skipWs : List Nat → List Nat
  | [] => []
  | b :: bs => if b = 32 ∨ b = 9 ∨ b = 10 ∨ b = 13 then skipWs bs else b :: bs

/-- Hexadecimal digit value of a byte. -/
def hexVal (b : Nat) : Option Nat :=
  if 48 ≤ b ∧ b ≤ 57 then some (b - 48)
  else if 97 ≤ b ∧ b ≤ 102 then some (b - 87)
  else if 65 ≤ b ∧ b ≤ 70 then some (b - 55)
  else none

/-- Parse the body of a JSON string after the opening quote, handling the
escape sequences `encoding/json` accepts (`\uXXXX` is decoded to the scalar
value; surrogate-pair recombination is not modelled). -/
def parseStringBody (fuel : Nat) (bs : List Nat) (acc : List Char) : Option (String × List Nat) :=
  match fuel, bs with
  | 0, _ => none
  | _, [] => none
  | f + 1, b :: rest =>
    if b = 34 then some (String.mk acc.reverse, rest)
    else if b = 92 then
      match rest with
      | [] => none
      | e :: rest2 =>
        if e = 34 then parseStringBody f rest2 ('"' :: acc)
        else if e = 92 then parseStringBody f rest2 ('\\' :: acc)
        else if e = 47 then parseStringBody f rest2 ('/' :: acc)
        else if e = 98 then parseStringBody f rest2 (Char.ofNat 8 :: acc)
        else if e = 102 then parseStringBody f rest2 (Char.ofNat 12 :: acc)
        else if e = 110 then parseStringBody f rest2 ('\n' :: acc)
        else if e = 114 then parseStringBody f rest2 ('\r' :: acc)
        else if e = 116 then parseStringBody f rest2 ('\t' :: acc)
        else if e = 117 then
          match rest2 with
          | h1 :: h2 :: h3 :: h4 :: rest3 =>
            match hexVal h1, hexVal h2, hexVal h3, hexVal h4 with
            | some v1, some v2, some v3, some v4 =>
              parseStringBody f rest3 (Char.ofNat (v1 * 4096 + v2 * 256 + v3 * 16 + v4) :: acc)
            | _, _, _, _ => none
          | _ => none
        else none
    else if b < 32 then none
    else parseStringBody f rest (Char.ofNat b :: acc)

/-- Byte is an ASCII digit. -/
def isDigitByte (b : Nat) : Bool := 48 ≤ b ∧ b ≤ 57

/-- Numeric value of a digit-byte list. -/
def digitsVal (ds : List Nat) : Nat := ds.foldl (fun a d => a * 10 + (d - 48)) 0

/-- Parse an optional fraction part `.digits`. -/
def parseFrac : List Nat → Option (List Nat × List Nat)
  | 46 :: rest =>
    let p := rest.span (fun x => isDigitByte x)
    if p.1.isEmpty then none else some (p.1, p.2)
  | bs => some ([], bs)

/-- Parse an optional exponent part `[eE][+-]?digits`; result is
(exponent is negative, exponent digits, rest). -/
def parseExpPart : List Nat → Option (Bool × List Nat × List Nat)
  | [] => some (false, [], [])
  | b :: rest =>
    if b = 101 ∨ b = 69 then
      match rest with
      | 43 :: r2 =>
        let p := r2.span (fun x => isDigitByte x)
        if p.1.isEmpty then none else some (false, p.1, p.2)
      | 45 :: r2 =>
        let p := r2.span (fun x => isDigitByte x)
        if p.1.isEmpty then none else some (true, p.1, p.2)
      | r2 =>
        let p := r2.span (fun x => isDigitByte x)
        if p.1.isEmpty then none else some (false, p.1, p.2)
    else some (false, [], b :: rest)

/-- Parse a JSON number with the grammar `encoding/json` enforces
(no leading zeros, no bare `.5` or `5.`, no lone `-`). -/
def parseNumber (bs : List Nat) : Option (JNum × List Nat) :=
  let negp : Bool × List Nat :=
    match bs with
    | 45 :: rest => (true, rest)
    | _ => (false, bs)
  let ip := negp.2.span (fun x => isDigitByte x)
  if ip.1.isEmpty then none
  else if ip.1.headD 0 = 48 ∧ 1 < ip.1.length then none
  else
    match parseFrac ip.2 with
    | none => none
    | some (frac, bs3) =>
      match parseExpPart bs3 with
      | none => none
      | some (eneg, eds, bs4) =>
        let e : Int := if eneg then -(digitsVal eds : Int) else (digitsVal eds : Int)
        some ({ neg := negp.1, mantissa := digitsVal (ip.1 ++ frac),
                fracLen := frac.length, exp := e }, bs4)

mutual

/-- Parse one JSON value; fuel bounds the recursion depth (any fuel at least
the input length succeeds on well-formed input). -/
def parseValue : Nat → List Nat → Option (Json × List Nat)
  | 0, _ => none
  | f + 1, bs =>
    match skipWs bs with
    | [] => none
    | b :: rest =>
      if b = 123 then
        match skipWs rest with
        | 125 :: r => some (.obj [], r)
        | r2 => parseObjFields f r2 []
      else if b = 91 then
        match skipWs rest with
        | 93 :: r => some (.arr [], r)
        | r2 => parseArrElems f r2 []
      else if b = 34 then
        (parseStringBody (rest.length + 1) rest []).map (fun p => (.str p.1, p.2))
      else if b = 116 then
        match rest with
        | 114 :: 117 :: 101 :: r => some (.bool true, r)
        | _ => none
      else if b = 102 then
        match rest with
        | 97 :: 108 :: 115 :: 101 :: r => some (.bool false, r)
        | _ => none
      else if b = 110 then
        match rest with
        | 117 :: 108 :: 108 :: r => some (.null, r)
        | _ => none
      else if b = 45 ∨ isDigitByte b then
        (parseNumber (b :: rest)).map (fun p => (.num p.1, p.2))
      else none

/-- Parse the members of a JSON object after `{` (first member pending). -/
def parseObjFields : Nat → List Nat → List (String × Json) → Option (Json × List Nat)
  | 0, _, _ => none
  | f + 1, bs, acc =>
    match skipWs bs with
    | 34 :: rest =>
      match parseStringBody (rest.length + 1) rest [] with
      | none => none
      | some (k, r1) =>
        match skipWs r1 with
        | 58 :: r2 =>
          match parseValue f r2 with
          | none => none
          | some (v, r3) =>
            match skipWs r3 with
            | 44 :: r4 => parseObjFields f r4 (acc ++ [(k, v)])
            | 125 :: r4 => some (.obj (acc ++ [(k, v)]), r4)
            | _ => none
        | _ => none
    | _ => none

/-- Parse the elements of a JSON array after `[` (first element pending). -/
def parseArrElems : Nat → List Nat → List Json → Option (Json × List Nat)
  | 0, _, _ => none
  | f + 1, bs, acc =>
    match parseValue f bs with
    | none => none
    | some (v, r1) =>
      match skipWs r1 with
      | 44 :: r2 => parseArrElems f r2 (acc ++ [v])
      | 93 :: r2 => some (.arr (acc ++ [v]), r2)
      | _ => none

end

/-- Model of `json.Unmarshal(raw, &v)` for `interface{}`: one value, then
only whitespace may remain. -/
def jsonUnmarshal (raw : List Nat) : Option Json :=
  match parseValue (raw.length + 1) raw with
  | some (v, rest) => if skipWs rest = [] then some v else none
  | none => none

/-- Model of `json.Unmarshal(raw, &claims)` for `map[string]interface{}`:
the top-level value must be an object. -/
def jsonUnmarshalObj (raw : List Nat) : Option (List (String × Json)) :=
  match jsonUnmarshal raw with
  | some (Json.obj fields) => some fields
  | _ => none

/-- Go map semantics for duplicated keys: the last binding wins. -/
def lookupLast (k : String) (fields : List (String × Json)) : Option Json :=
  fields.foldl (fun acc kv => if kv.1 = k then some kv.2 else acc) none

/-! ## `internal/http/handlers/middlewares.go` -/

/-- The distinct error values `tokenExpired` can return: the explicit
`errors.New` values plus the pass-through base64 and JSON decode errors.
The `json.Number` branch of the type switch (and its `Int64()` error) is
unreachable, because a decoder without `UseNumber` never produces a
`json.Number`, so no constructor models it. -/
inductive TokenError where
  | malformedToken
  | badSegment
  | badClaims
  | expNotPresent
  | invalidExpType
deriving DecidableEq, Repr

/-- The payload-segment decode of `tokenExpired`: URL-safe base64 without
padding first, standard padded base64 as the fallback. -/
def decodePayload (payload : String) : Option (List Nat) :=
  match rawUrlB64Decode payload with
  | some raw => some raw
  | none => stdB64Decode payload

/-- The claim extraction performed by `tokenExpired` up to (but not
including) the final comparison against the clock: split on dots, decode
segment 1 (the guard makes the default of `getD` unreachable, mirroring the
panic-free `parts[1]`), unmarshal the claims object, read `exp`, convert
through the `int64(float64)` truncation. -/
def tokenExp (token : String) : Except TokenError Int :=
  let parts := goSplitDot token
  if parts.length < 2 then .error .malformedToken
  else
    match decodePayload (parts.getD 1 "") with
    | none => .error .badSegment
    | some raw =>
      match jsonUnmarshalObj raw with
      | none => .error .badClaims
      | some claims =>
        match lookupLast "exp" claims with
        | none => .error .expNotPresent
        | some (Json.num n) => .ok n.toInt64Trunc
        | some _ => .error .invalidExpType

/-- `tokenExpired` from `middlewares.go`: decodes the JWT payload and
returns `true` exactly when `now >= exp`. -/
def tokenExpired (token : String) (now : Int) : Except TokenError Bool :=
  match tokenExp token with
  | .error e => .error e
  | .ok exp => .ok (decide (now ≥ exp))

/-- An inbound request as the middleware sees it: the value of the
`Authorization` header (`""` when absent, matching Go's `Header.Get`) and
the value of the `access_token` cookie (`none` when the cookie is absent). -/
structure Request where
  authHeader : String
  accessCookie : Option String
deriving DecidableEq, Repr

/-- The observable outcome of the middleware on one request: either the
next handler runs with the given outgoing-metadata pairs attached to the
request context, or an HTTP error is written and the next handler never
runs. -/
inductive GateOutcome where
  | allow (metadataPairs : List (String × String))
  | reject (status : Nat) (msg : String)
deriving DecidableEq, Repr

/-- The allow/reject decision of an outcome, forgetting the propagated
metadata. -/
def GateOutcome.decision : GateOutcome → Option (Nat × String)
  | .allow _ => none
  | .reject s m => some (s, m)

/-- The credential-extraction prelude of `PropagateAuthToGRPC`: take the
`Authorization` header; if it is empty, fall back to a non-empty
`access_token` cookie, prepending `"Bearer "`. -/
def extractAuth (r : Request) : String :=
  if r.authHeader = "" then
    match r.accessCookie with
    | some v => if v = "" then "" else "Bearer " ++ v
    | none => ""
  else r.authHeader

/-- The constant `prefix` of `PropagateAuthToGRPC`. -/
def bearerPrefix : String := "Bearer "

/-- The admission logic of `PropagateAuthToGRPC` applied to the extracted
`auth` value: the empty check, the prefix-length and case-folded prefix
checks, the trim-and-empty check, and the expiry check, each rejecting with
its own 401 message; on success the verbatim `auth` value becomes the
outgoing `authorization` metadata. -/
def gateAuth (auth : String) (now : Int) : GateOutcome :=
  if auth = "" then .reject 401 "missing access token"
  else if strLen auth ≤ strLen bearerPrefix ∨
      stringEqualFold (strTake auth (strLen bearerPrefix)) bearerPrefix = false then
    .reject 401 "invalid access token"
  else
    let raw := goTrimSpace (strDrop auth (strLen bearerPrefix))
    if raw = "" then .reject 401 "empty access token"
    else
      match tokenExpired raw now with
      | .error _ => .reject 401 "invalid access token"
      | .ok true => .reject 401 "access token expired"
      | .ok false => .allow [("authorization", auth)]

/-- `PropagateAuthToGRPC` from `middlewares.go` as a function from the
request (plus the clock) to its observable outcome. -/
def propagateAuthToGRPC (r : Request) (now : Int) : GateOutcome :=
  gateAuth (extractAuth r) now

/-! ## `internal/http/handlers` auth handlers (token issuance)

Durations (`durationpb` fields) are modelled as whole seconds (`Int`), and
`time.Time` values as Unix seconds, which is exact for the second-granular
lifetimes the backend issues. -/

/-- `pb.TokenResponse` restricted to the fields the handlers read. -/
structure TokenResponse where
  userId : String
  accessToken : String
  refreshToken : String
  accessExpiresIn : Option Int
  refreshExpiresIn : Option Int
deriving DecidableEq, Repr

/-- An `http.Cookie` as the handlers populate it; `expires = none` models
the zero `Expires` field, i.e. a session cookie. -/
structure Cookie where
  name : String
  value : String
  path : String
  httpOnly : Bool
  sameSiteLax : Bool
  secure : Bool
  expires : Option Int
deriving DecidableEq, Repr

/-- A response body: either raw text (as written by `http.Error`) or the
JSON object the handler encodes (serialization itself is treated as the
external `encoding/json` collaborator). -/
inductive Body where
  | text (s : String)
  | jsonObj (fields : List (String × Json))

/-- The observable HTTP response of a handler. -/
structure HttpResponse where
  status : Nat
  body : Body
  headers : List (String × String)
  cookies : List Cookie

/-- Model of `http.Error(w, msg, status)`: plain-text body `msg`
followed by a newline. -/
def httpError (msg : String) (status : Nat) : HttpResponse :=
  { status := status
    body := .text (msg ++ "\n")
    headers := [("Content-Type", "text/plain; charset=utf-8")]
    cookies := [] }

/-- `setRefreshTokenInCookie`: whole-path, HTTP-only, `SameSite=Lax`
cookie, `Secure` iff the request came over TLS; expiry only when the
backend supplied a refresh lifetime. -/
def setRefreshTokenInCookie (now : Int) (tls : Bool) (resp : TokenResponse) : Cookie :=
  { name := "refresh_token"
    value := resp.refreshToken
    path := "/"
    httpOnly := true
    sameSiteLax := true
    secure := tls
    expires :=
      match resp.refreshExpiresIn with
      | some d => some (now + d)
      | none => none }

/-- `setAccessTokenInCookie`: the cookie (same attributes as the refresh
cookie, expiry defaulting to five minutes when the backend supplied no
access lifetime) together with the two response headers the function sets. -/
def setAccessTokenInCookie (now : Int) (tls : Bool) (resp : TokenResponse) :
    Cookie × List (String × String) :=
  ({ name := "access_token"
     value := resp.accessToken
     path := "/"
     httpOnly := true
     sameSiteLax := true
     secure := tls
     expires :=
       match resp.accessExpiresIn with
       | some d => some (now + d)
       | none => some (now + 5 * 60) },
   [("Authorization", "Bearer " ++ resp.accessToken),
    ("Access-Control-Expose-Headers", "Authorization")])

/-- `pb.LoginRequest` restricted to the fields the handler reads. -/
structure LoginRequest where
  username : String
  password : String
deriving DecidableEq, Repr

/-- `LoginHandler`: `body = none` models a JSON decode failure of the
request body; `backend` is the result of the `Client.Login` RPC (its
`.error` carries the Go error's text, `err.Error()`).  The success-path
`json.NewEncoder(w).Encode` of a map of strings and integers cannot fail,
so its error branch is not modelled. -/
def loginHandler (now : Int) (tls : Bool) (body : Option LoginRequest)
    (backend : Except String TokenResponse) : HttpResponse :=
  match body with
  | none => httpError "Invalid request" 400
  | some req =>
    if req.username = "" ∨ req.password = "" then httpError "Invalid request" 400
    else
      match backend with
      | .error e => httpError e 500
      | .ok resp =>
        { status := 200
          body := .jsonObj
            ([("user_id", Json.str resp.userId)] ++
             (if resp.accessToken = "" then [] else
               [("access_token", Json.str resp.accessToken)]) ++
             (match resp.accessExpiresIn with
              | some d => [("access_expires_in_seconds",
                  Json.num { neg := decide (d < 0), mantissa := d.natAbs,
                             fracLen := 0, exp := 0 })]
              | none => []))
          headers :=
            (if resp.accessToken = "" then [] else (setAccessTokenInCookie now tls resp).2) ++
            [("Content-Type", "application/json")]
          cookies :=
            (if resp.refreshToken = "" then [] else [setRefreshTokenInCookie now tls resp]) ++
            (if resp.accessToken = "" then [] else [(setAccessTokenInCookie now tls resp).1]) }

/-- Whether a response body contains the given text. -/
def bodyContains (b : Body) (pat : String) : Bool :=
  match b with
  | .text s => containsStr s pat
  | .jsonObj _ => false

/-! ## The revoke endpoint -/

/-- `pb.RevokeRequest` as exercised by the integration test. -/
structure RevokeRequest where
  refreshToken : String
  userId : String
deriving DecidableEq, Repr

/-- `pb.RevokeResponse` (carries no field the gateway reads). -/
structure RevokeResponse where
deriving DecidableEq, Repr

/-- Modelled from the spec: the body of `AuthManager.RevokeHandler` is not
among the sources (the routers and the integration test reference it, and
`cmd/main.go` even comments its route out as "handler not defined").  The
spec requires `POST /auth/revoke {refresh_token, user_id}` to forward the
pair to the credential backend's revoke call and answer with a confirmation
body on success, backend failures mapping to HTTP 500; the integration test
pins the confirmation body to the JSON object `Message: "Token revoked"`.
The first component of the result records the request forwarded to the
backend (`none` when the backend was never called). -/
def revokeHandler (body : Option RevokeRequest)
    (backend : RevokeRequest → Except String RevokeResponse) :
    Option RevokeRequest × HttpResponse :=
  match body with
  | none => (none, httpError "Invalid request" 400)
  | some req =>
    match backend req with
    | .error _ => (some req, httpError "Failed to revoke token" 500)
    | .ok _ =>
      (some req,
       { status := 200
         body := .jsonObj [("Message", Json.str "Token revoked")]
         headers := [("Content-Type", "application/json")]
         cookies := [] })

/-! ## Helper lemmas -/

theorem dataAppend (s t : String) : (s ++ t).data = s.data ++ t.data := by
  cases s; cases t; rfl

theorem mkData (s : String) : String.mk s.data = s := by
  cases s; rfl

theorem strLen_append (s t : String) : strLen (s ++ t) = strLen s + strLen t := by
  simp [strLen, dataAppend]

theorem strTake_append (s t : String) : strTake (s ++ t) (strLen s) = s := by
  rw [strTake, strLen, dataAppend, List.take_left, mkData]

theorem strDrop_append (s t : String) : strDrop (s ++ t) (strLen s) = t := by
  rw [strDrop, strLen, dataAppend, List.drop_left, mkData]

theorem strLen_eq_zero_iff (s : String) : strLen s = 0 ↔ s = "" := by
  cases s with
  | mk l => simp [strLen, String.ext_iff, List.length_eq_zero]

theorem append_ne_empty (s t : String) (h : s ≠ "") : s ++ t ≠ "" := by
  intro heq
  have hlen := congrArg strLen heq
  rw [strLen_append, show strLen ("" : String) = 0 from rfl] at hlen
  exact h ((strLen_eq_zero_iff s).mp (by omega))

/-- On a non-empty `auth` value that passes the length and case-folded
prefix checks, the gate is the trim-empty check followed by the expiry
check. -/
theorem gateAuth_of_good_prefix (auth : String) (now : Int)
    (hne : auth ≠ "")
    (hlen : strLen bearerPrefix < strLen auth)
    (hfold : stringEqualFold (strTake auth (strLen bearerPrefix)) bearerPrefix = true) :
    gateAuth auth now =
      if goTrimSpace (strDrop auth (strLen bearerPrefix)) = "" then
        .reject 401 "empty access token"
      else
        match tokenExpired (goTrimSpace (strDrop auth (strLen bearerPrefix))) now with
        | .error _ => .reject 401 "invalid access token"
        | .ok true => .reject 401 "access token expired"
        | .ok false => .allow [("authorization", auth)] := by
  unfold gateAuth
  rw [if_neg hne, if_neg ?_]
  rintro (h1 | h2)
  · exact absurd hlen (not_lt.mpr h1)
  · rw [hfold] at h2
    exact Bool.noConfusion h2

/-- A token whose claim extraction fails makes the gate (presented the
token behind the canonical prefix) reject with the malformed-credential
message. -/
theorem gate_rejects_of_tokenExp_error (t : String) (cookie : Option String) (now : Int)
    (e : TokenError) (hne : t ≠ "") (htrim : goTrimSpace t = t)
    (herr : tokenExp t = .error e) :
    propagateAuthToGRPC ⟨"Bearer " ++ t, cookie⟩ now = .reject 401 "invalid access token" := by
  have hbne : ("Bearer " ++ t) ≠ "" := append_ne_empty _ _ (by decide)
  have hext : extractAuth ⟨"Bearer " ++ t, cookie⟩ = "Bearer " ++ t := by
    simp only [extractAuth]
    exact if_neg hbne
  have hlen : strLen bearerPrefix < strLen ("Bearer " ++ t) := by
    rw [show ("Bearer " : String) = bearerPrefix from rfl, strLen_append]
    have : strLen t ≠ 0 := fun h => hne ((strLen_eq_zero_iff t).mp h)
    omega
  have hfold : stringEqualFold (strTake ("Bearer " ++ t) (strLen bearerPrefix))
      bearerPrefix = true := by
    rw [show ("Bearer " : String) = bearerPrefix from rfl, strTake_append]
    decide
  have hdrop : strDrop ("Bearer " ++ t) (strLen bearerPrefix) = t := by
    rw [show ("Bearer " : String) = bearerPrefix from rfl, strDrop_append]
  rw [propagateAuthToGRPC, hext, gateAuth_of_good_prefix _ _ hbne hlen hfold, hdrop, htrim,
    if_neg hne, show tokenExpired t now = .error e by rw [tokenExpired, herr]]

/-! ## The claims -/

/-- C1: for a request whose `Authorization` header is non-empty, passes the
prefix checks, and carries a payload whose decoded `exp` claim is `e`, the
gate allows the request exactly when `now < e`; when `e ≤ now` (including
`e = now`: the `now >= exp` check is inclusive) it rejects with HTTP 401
and the message "access token expired". -/
theorem claim_C1_expiry_gate_boundary (a : String) (cookie : Option String) (now e : Int)
    (hlen : strLen bearerPrefix < strLen a)
    (hfold : stringEqualFold (strTake a (strLen bearerPrefix)) bearerPrefix = true)
    (hexp : tokenExp (goTrimSpace (strDrop a (strLen bearerPrefix))) = .ok e) :
    (now < e → propagateAuthToGRPC ⟨a, cookie⟩ now = .allow [("authorization", a)]) ∧
    (e ≤ now → propagateAuthToGRPC ⟨a, cookie⟩ now = .reject 401 "access token expired") := by
  have hne : a ≠ "" := by
    intro h
    rw [h, show strLen "" = 0 from rfl] at hlen
    exact Nat.not_lt_zero _ hlen
  have hext : extractAuth ⟨a, cookie⟩ = a := by
    simp only [extractAuth]
    exact if_neg hne
  have hraw : goTrimSpace (strDrop a (strLen bearerPrefix)) ≠ "" := by
    intro h
    rw [h, show tokenExp "" = .error .malformedToken from rfl] at hexp
    exact Except.noConfusion hexp
  have htokexp : tokenExpired (goTrimSpace (strDrop a (strLen bearerPrefix))) now =
      .ok (decide (now ≥ e)) := by
    rw [tokenExpired, hexp]
  constructor
  · intro hlt
    rw [propagateAuthToGRPC, hext, gateAuth_of_good_prefix _ _ hne hlen hfold, if_neg hraw,
      htokexp, decide_eq_false (not_le.mpr hlt)]
  · intro hle
    rw [propagateAuthToGRPC, hext, gateAuth_of_good_prefix _ _ hne hlen hfold, if_neg hraw,
      htokexp, decide_eq_true hle]

theorem claim_C1_witness :
    propagateAuthToGRPC ⟨"Bearer h.eyJleHAiOjV9.s", none⟩ 4 =
      .allow [("authorization", "Bearer h.eyJleHAiOjV9.s")] ∧
    propagateAuthToGRPC ⟨"Bearer h.eyJleHAiOjV9.s", none⟩ 5 =
      .reject 401 "access token expired" :=
  ⟨(claim_C1_expiry_gate_boundary "Bearer h.eyJleHAiOjV9.s" none 4 5
      (by decide) (by decide) rfl).1 (by decide),
   (claim_C1_expiry_gate_boundary "Bearer h.eyJleHAiOjV9.s" none 5 5
      (by decide) (by decide) rfl).2 (by decide)⟩

/-- C2 counterexample: a login whose backend call fails with the error text
"invalid credentials" gets an HTTP 500 whose body contains exactly that
internal error text, so the backend's error text is not kept out of the
response (the handler writes `err.Error()` into the body, and the repo's
own `TestLoginHandler_InvalidCredentials` asserts the leak). -/
theorem claim_C2_counterexample :
    (loginHandler 0 false (some ⟨"testuser", "wrongpass"⟩)
      (.error "invalid credentials")).status = 500 ∧
    bodyContains (loginHandler 0 false (some ⟨"testuser", "wrongpass"⟩)
      (.error "invalid credentials")).body "invalid credentials" = true := by
  exact ⟨rfl, by decide⟩

/-- C2 amended: for every login request whose backend call fails, the
handler responds HTTP 500 — but the message is the backend error's own
text, newline-terminated, not a generic one. -/
theorem claim_C2_backend_error_status (now : Int) (tls : Bool) (req : LoginRequest)
    (emsg : String) (hu : req.username ≠ "") (hp : req.password ≠ "") :
    loginHandler now tls (some req) (.error emsg) = httpError emsg 500 := by
  simp only [loginHandler]
  rw [if_neg ?_]
  rintro (h | h)
  · exact hu h
  · exact hp h

theorem claim_C2_witness :
    loginHandler 0 false (some ⟨"u", "p"⟩) (.error "boom") = httpError "boom" 500 :=
  claim_C2_backend_error_status 0 false ⟨"u", "p"⟩ "boom" (by decide) (by decide)

/-- C3 counterexample: for the token string `t = ""`, the header-sourced
request (`Authorization: Bearer ` with the empty token appended) is
rejected with "invalid access token", while the cookie-sourced request
(`access_token=`) is rejected with "missing access token": the two gate
outcomes differ, so they are not exactly the same for every token string. -/
theorem claim_C3_counterexample :
    propagateAuthToGRPC ⟨"Bearer " ++ "", none⟩ 0 = .reject 401 "invalid access token" ∧
    propagateAuthToGRPC ⟨"", some ""⟩ 0 = .reject 401 "missing access token" ∧
    propagateAuthToGRPC ⟨"Bearer " ++ "", none⟩ 0 ≠ propagateAuthToGRPC ⟨"", some ""⟩ 0 := by
  decide

/-- C3 amended: for every non-empty token string `t` and every fixed
current time, a request presenting `Authorization: Bearer t` and no cookie
produces exactly the same gate outcome as a request presenting no
`Authorization` header and a cookie `access_token=t`; for `t = ""` both
requests are rejected with HTTP 401 but with different messages. -/
theorem claim_C3_source_independence (t : String) (now : Int) (ht : t ≠ "") :
    propagateAuthToGRPC ⟨"Bearer " ++ t, none⟩ now = propagateAuthToGRPC ⟨"", some t⟩ now := by
  unfold propagateAuthToGRPC
  congr 1
  simp only [extractAuth]
  rw [if_neg (append_ne_empty _ _ (by decide))]
  simp [ht]

theorem claim_C3_witness :
    propagateAuthToGRPC ⟨"Bearer " ++ "h.eyJleHAiOjV9.s", none⟩ 0 =
      propagateAuthToGRPC ⟨"", some "h.eyJleHAiOjV9.s"⟩ 0 :=
  claim_C3_source_independence "h.eyJleHAiOjV9.s" 0 (by decide)

/-- C4: a credential whose payload decodes and parses to a claims object
with no `exp` key makes the claim decoder return the missing-expiry error,
and the gate rejects the request with HTTP 401 rather than treating it as
never-expiring; an `exp` bound to a non-numeric value likewise yields the
invalid-expiry-type error and a 401 rejection. -/
theorem claim_C4_missing_or_invalid_exp (t p : String) (cookie : Option String) (now : Int)
    (raw : List Nat) (fields : List (String × Json))
    (hparts : 2 ≤ (goSplitDot t).length)
    (hp : (goSplitDot t)[1]? = some p)
    (hdec : decodePayload p = some raw)
    (hjson : jsonUnmarshalObj raw = some fields)
    (htrim : goTrimSpace t = t) :
    (lookupLast "exp" fields = none →
      tokenExp t = .error .expNotPresent ∧
      propagateAuthToGRPC ⟨"Bearer " ++ t, cookie⟩ now = .reject 401 "invalid access token") ∧
    (∀ v, lookupLast "exp" fields = some v → (∀ n, v ≠ Json.num n) →
      tokenExp t = .error .invalidExpType ∧
      propagateAuthToGRPC ⟨"Bearer " ++ t, cookie⟩ now = .reject 401 "invalid access token") := by
  have hne : t ≠ "" := by
    intro h
    rw [h, show goSplitDot "" = [""] from rfl] at hparts
    exact absurd hparts (by decide)
  have hgetD : (goSplitDot t).getD 1 "" = p := by
    rw [List.getD, List.get?_eq_getElem?, hp]
    rfl
  constructor
  · intro hnone
    have hexp : tokenExp t = .error .expNotPresent := by
      simp only [tokenExp]
      rw [if_neg (by omega), hgetD]
      simp only [hdec, hjson, hnone]
    exact ⟨hexp, gate_rejects_of_tokenExp_error t cookie now _ hne htrim hexp⟩
  · intro v hv hnum
    have hexp : tokenExp t = .error .invalidExpType := by
      simp only [tokenExp]
      rw [if_neg (by omega), hgetD]
      simp only [hdec, hjson, hv]
    exact ⟨hexp, gate_rejects_of_tokenExp_error t cookie now _ hne htrim hexp⟩

theorem claim_C4_witness :
    (tokenExp "h.e30.s" = .error .expNotPresent ∧
      propagateAuthToGRPC ⟨"Bearer " ++ "h.e30.s", none⟩ 0 =
        .reject 401 "invalid access token") ∧
    (tokenExp "h.eyJleHAiOiJhIn0.s" = .error .invalidExpType ∧
      propagateAuthToGRPC ⟨"Bearer " ++ "h.eyJleHAiOiJhIn0.s", none⟩ 0 =
        .reject 401 "invalid access token") := by
  constructor
  · exact (claim_C4_missing_or_invalid_exp "h.e30.s" "e30" none 0 [123, 125] []
      (by decide) (by decide) rfl rfl rfl).1 rfl
  · exact (claim_C4_missing_or_invalid_exp "h.eyJleHAiOiJhIn0.s" "eyJleHAiOiJhIn0" none 0
      [123, 34, 101, 120, 112, 34, 58, 34, 97, 34, 125] [("exp", Json.str "a")]
      (by decide) (by decide) rfl rfl rfl).2 (Json.str "a") rfl
      (fun n h => Json.noConfusion h)

/-- C5: the access cookie written by `setAccessTokenInCookie` always has an
explicit expiry: `now + 300` seconds when the backend response carries no
access lifetime, `now + d` when it carries lifetime `d`. -/
theorem claim_C5_access_cookie_expiry (now : Int) (tls : Bool) (resp : TokenResponse) :
    (setAccessTokenInCookie now tls resp).1.expires.isSome = true ∧
    (resp.accessExpiresIn = none →
      (setAccessTokenInCookie now tls resp).1.expires = some (now + 5 * 60)) ∧
    (∀ d, resp.accessExpiresIn = some d →
      (setAccessTokenInCookie now tls resp).1.expires = some (now + d)) := by
  refine ⟨?_, fun h => ?_, fun d h => ?_⟩ <;>
    simp only [setAccessTokenInCookie] <;>
    rcases hd : resp.accessExpiresIn with _ | d' <;>
    simp_all

theorem claim_C5_witness :
    (setAccessTokenInCookie 1000 false
      ⟨"u1", "tok", "r", none, none⟩).1.expires = some (1000 + 5 * 60) ∧
    (setAccessTokenInCookie 1000 false
      ⟨"u1", "tok", "r", some 120, none⟩).1.expires = some (1000 + 120) :=
  ⟨(claim_C5_access_cookie_expiry 1000 false ⟨"u1", "tok", "r", none, none⟩).2.1 rfl,
   (claim_C5_access_cookie_expiry 1000 false ⟨"u1", "tok", "r", some 120, none⟩).2.2 120 rfl⟩

/-- C6: on every request the middleware either invokes the downstream
handler with the outgoing metadata pair `authorization` bound to the
extracted bearer value verbatim (the header value, or `"Bearer " ++ cookie`
— prefix included, unmodified), or writes an HTTP 401 rejection, in which
case the downstream handler is never invoked (`GateOutcome.allow` is by
construction the only outcome that runs the next handler). -/
theorem claim_C6_metadata_or_reject (r : Request) (now : Int) :
    propagateAuthToGRPC r now = .allow [("authorization", extractAuth r)] ∨
    ∃ msg, propagateAuthToGRPC r now = .reject 401 msg := by
  unfold propagateAuthToGRPC
  simp only [gateAuth]
  split
  · exact Or.inr ⟨_, rfl⟩
  · split
    · exact Or.inr ⟨_, rfl⟩
    · split
      · exact Or.inr ⟨_, rfl⟩
      · split
        · exact Or.inr ⟨_, rfl⟩
        · exact Or.inr ⟨_, rfl⟩
        · exact Or.inl rfl

/-- C7: the claim decoder splits the credential on dots; any input with
fewer than two segments yields the malformed-credential error, and on
inputs with at least two segments the result depends only on the second
segment (so only the payload segment is ever decoded). -/
theorem claim_C7_split_payload_only :
    (∀ t : String, (goSplitDot t).length < 2 → tokenExp t = .error .malformedToken) ∧
    (∀ t t' : String, 2 ≤ (goSplitDot t).length → 2 ≤ (goSplitDot t').length →
      (goSplitDot t)[1]? = (goSplitDot t')[1]? → tokenExp t = tokenExp t') := by
  constructor
  · intro t h
    simp only [tokenExp]
    rw [if_pos h]
  · intro t t' h h' heq
    have hD : (goSplitDot t).getD 1 "" = (goSplitDot t').getD 1 "" := by
      rw [List.getD, List.getD, List.get?_eq_getElem?, List.get?_eq_getElem?, heq]
    simp only [tokenExp]
    rw [if_neg (by omega), if_neg (by omega), hD]

theorem claim_C7_witness :
    tokenExp "x" = .error .malformedToken ∧ tokenExp "a.e30.c" = tokenExp "zz.e30" :=
  ⟨claim_C7_split_payload_only.1 "x" (by decide),
   claim_C7_split_payload_only.2 "a.e30.c" "zz.e30" (by decide) (by decide) (by decide)⟩

/-- C8: the revoke operation forwards the decoded `{refresh_token,
user_id}` pair to the credential backend's revoke call and, when the
backend succeeds, answers HTTP 200 with the confirmation body
`Message: "Token revoked"` (handler modelled from the spec and its
integration test; see `revokeHandler`). -/
theorem claim_C8_revoke_forwards_and_confirms (req : RevokeRequest)
    (backend : RevokeRequest → Except String RevokeResponse) (r0 : RevokeResponse)
    (hok : backend req = .ok r0) :
    revokeHandler (some req) backend =
      (some req,
       { status := 200
         body := .jsonObj [("Message", Json.str "Token revoked")]
         headers := [("Content-Type", "application/json")]
         cookies := [] }) := by
  simp only [revokeHandler]
  rw [hok]

theorem claim_C8_witness :
    revokeHandler (some ⟨"refresh-token-to-revoke", "user-123"⟩) (fun _ => .ok ⟨⟩) =
      (some ⟨"refresh-token-to-revoke", "user-123"⟩,
       { status := 200
         body := .jsonObj [("Message", Json.str "Token revoked")]
         headers := [("Content-Type", "application/json")]
         cookies := [] }) :=
  claim_C8_revoke_forwards_and_confirms ⟨"refresh-token-to-revoke", "user-123"⟩
    (fun _ => .ok ⟨⟩) ⟨⟩ rfl

/-- C9: the prefix check folds case — presenting the token behind any
casing of the seven prefix characters yields the same allow/reject
decision (status and message) as the canonical `Bearer ` prefix — and a
non-empty credential no longer than the prefix, or whose first seven
characters do not case-insensitively equal `Bearer `, is rejected at the
prefix check as an invalid access token. -/
theorem claim_C9_prefix_case_fold :
    (∀ (p t : String) (cookie : Option String) (now : Int),
      strLen p = strLen bearerPrefix → stringEqualFold p bearerPrefix = true →
      (propagateAuthToGRPC ⟨p ++ t, cookie⟩ now).decision =
        (propagateAuthToGRPC ⟨bearerPrefix ++ t, cookie⟩ now).decision) ∧
    (∀ (auth : String) (cookie : Option String) (now : Int), auth ≠ "" →
      (strLen auth ≤ strLen bearerPrefix ∨
        stringEqualFold (strTake auth (strLen bearerPrefix)) bearerPrefix = false) →
      propagateAuthToGRPC ⟨auth, cookie⟩ now = .reject 401 "invalid access token") := by
  constructor
  · intro p t cookie now hplen hfold
    have hpne : p ≠ "" := by
      intro h
      rw [h, show strLen "" = 0 from rfl] at hplen
      exact absurd hplen.symm (by decide)
    have hne1 : p ++ t ≠ "" := append_ne_empty _ _ hpne
    have hne2 : bearerPrefix ++ t ≠ "" := append_ne_empty _ _ (by decide)
    have hext1 : extractAuth ⟨p ++ t, cookie⟩ = p ++ t := by
      simp only [extractAuth]
      exact if_neg hne1
    have hext2 : extractAuth ⟨bearerPrefix ++ t, cookie⟩ = bearerPrefix ++ t := by
      simp only [extractAuth]
      exact if_neg hne2
    have hlen1 : strLen (p ++ t) = strLen bearerPrefix + strLen t := by
      rw [strLen_append, hplen]
    have hlen2 : strLen (bearerPrefix ++ t) = strLen bearerPrefix + strLen t :=
      strLen_append _ _
    by_cases ht0 : strLen t = 0
    · have hle1 : strLen (p ++ t) ≤ strLen bearerPrefix := by omega
      have hle2 : strLen (bearerPrefix ++ t) ≤ strLen bearerPrefix := by omega
      rw [propagateAuthToGRPC, propagateAuthToGRPC, hext1, hext2]
      unfold gateAuth
      rw [if_neg hne1, if_neg hne2, if_pos (Or.inl hle1), if_pos (Or.inl hle2)]
    · have htake1 : strTake (p ++ t) (strLen bearerPrefix) = p := by
        rw [← hplen, strTake_append]
      have htake2 : strTake (bearerPrefix ++ t) (strLen bearerPrefix) = bearerPrefix :=
        strTake_append _ _
      have hdrop1 : strDrop (p ++ t) (strLen bearerPrefix) = t := by
        rw [← hplen, strDrop_append]
      have hdrop2 : strDrop (bearerPrefix ++ t) (strLen bearerPrefix) = t :=
        strDrop_append _ _
      have hg1 := gateAuth_of_good_prefix (p ++ t) now hne1 (by omega)
        (by rw [htake1]; exact hfold)
      have hg2 := gateAuth_of_good_prefix (bearerPrefix ++ t) now hne2 (by omega)
        (by rw [htake2]; decide)
      rw [propagateAuthToGRPC, propagateAuthToGRPC, hext1, hext2, hg1, hg2, hdrop1, hdrop2]
      by_cases hraw : goTrimSpace t = ""
      · rw [if_pos hraw, if_pos hraw]
      · rw [if_neg hraw, if_neg hraw]
        rcases htk : tokenExpired (goTrimSpace t) now with e | b
        · rfl
        · cases b <;> rfl
  · intro auth cookie now hne hcond
    have hext : extractAuth ⟨auth, cookie⟩ = auth := by
      simp only [extractAuth]
      exact if_neg hne
    rw [propagateAuthToGRPC, hext]
    unfold gateAuth
    rw [if_neg hne, if_pos hcond]

theorem claim_C9_witness :
    (propagateAuthToGRPC ⟨"BEARER " ++ "h.eyJleHAiOjV9.s", none⟩ 0).decision =
      (propagateAuthToGRPC ⟨bearerPrefix ++ "h.eyJleHAiOjV9.s", none⟩ 0).decision ∧
    propagateAuthToGRPC ⟨"bearer", none⟩ 0 = .reject 401 "invalid access token" :=
  ⟨claim_C9_prefix_case_fold.1 "BEARER " "h.eyJleHAiOjV9.s" none 0 (by decide) (by decide),
   claim_C9_prefix_case_fold.2 "bearer" none 0 (by decide) (Or.inl (by decide))⟩

/-- C10: a non-empty `Authorization` header completely shadows the cookie —
the gate outcome is independent of the `access_token` cookie whenever the
header is non-empty, so a malformed or expired header value is rejected
with 401 even when a valid, unexpired cookie accompanies it; the cookie is
consulted only when the header is exactly the empty string. -/
theorem claim_C10_header_shadows_cookie (hdr : String) (c c' : Option String) (now : Int)
    (hne : hdr ≠ "") :
    propagateAuthToGRPC ⟨hdr, c⟩ now = propagateAuthToGRPC ⟨hdr, c'⟩ now := by
  unfold propagateAuthToGRPC
  congr 1
  simp only [extractAuth]
  rw [if_neg hne, if_neg hne]

theorem claim_C10_witness :
    propagateAuthToGRPC ⟨"Bearer x", some "h.eyJleHAiOjV9.s"⟩ 0 =
      propagateAuthToGRPC ⟨"Bearer x", none⟩ 0 ∧
    propagateAuthToGRPC ⟨"Bearer x", some "h.eyJleHAiOjV9.s"⟩ 0 =
      .reject 401 "invalid access token" ∧
    propagateAuthToGRPC ⟨"", some "h.eyJleHAiOjV9.s"⟩ 0 =
      .allow [("authorization", "Bearer h.eyJleHAiOjV9.s")] :=
  ⟨claim_C10_header_shadows_cookie "Bearer x" (some "h.eyJleHAiOjV9.s") none 0 (by decide),
   by decide, by decide⟩

end Gateway
